import Mathlib

/-!
# Secret leases: `logical/framework/secret.go`

A shallow embedding of the secret descriptor (`Secret`), of the identifier
decoder (`SecretType`) and of the response builder (`Secret.Response`),
followed by the properties of the identifier codec and of the issued lease.

Go strings are finite byte sequences, so they are embedded as lists of bytes.
Slice expressions are embedded as fallible operations: an index outside the
string is a run-time failure in Go and is `none` here.
-/

set_option autoImplicit false

/-- A byte of a Go string. -/
abbrev GoByte := Fin 256

/-- A Go `string`: an immutable sequence of bytes. -/
abbrev GoString := List GoByte

/-- A Go `map[string]V`; the nil map is `none`. -/
abbrev GoMap (V : Type) := Option (List (GoString × V))

/-- The bytes of a Go string literal, which the compiler stores in UTF-8. -/
def bytes (s : String) : GoString :=
  s.toList.flatMap (fun c => (String.utf8EncodeChar c).map (fun b => b.val))

namespace strings

/-- Search loop of `strings.Index`: the offset of the first position of `s` at
which `substr` starts, counted from `k`, or `-1` when there is none. -/
def indexFrom (substr : GoString) : GoString → Nat → Int
  | [], k => if substr.isPrefixOf [] then (k : Int) else -1
  | c :: cs, k =>
    if substr.isPrefixOf (c :: cs) then (k : Int) else indexFrom substr cs (k + 1)

/-- Go library `strings.Index(s, substr)`: the index of the first instance of
`substr` in `s`, or `-1` if `substr` is not present in `s`. -/
def Index (s substr : GoString) : Int :=
  indexFrom substr s 0

end strings

namespace fmt

/-- Operands left over after the format is consumed, as `fmt` reports them:
`%!(EXTRA string=a, string=b)`. -/
def extraOperands : List GoString → GoString
  | [] => []
  | [a] => bytes "string=" ++ a
  | a :: b :: as => bytes "string=" ++ a ++ bytes ", " ++ extraOperands (b :: as)

/-- Go library `fmt.Sprintf` on the fragment used by this package: the format
holds literal bytes and `%s` verbs, and every operand is a string. A `%s` is
replaced by the bytes of the next operand (by `%!s(MISSING)` when the operands
have run out), a literal byte is copied, and operands left over are reported
at the end. Other verbs, flags and operand types are not part of the
embedding: a `%` that does not start a `%s` is outside the fragment. -/
def Sprintf : GoString → List GoString → GoString
  | [], [] => []
  | [], a :: as => bytes "%!(EXTRA " ++ extraOperands (a :: as) ++ bytes ")"
  | [c], args => c :: Sprintf [] args
  | c :: d :: rest, args =>
    if c = 0x25 ∧ d = 0x73 then
      match args with
      | a :: as => a ++ Sprintf rest as
      | [] => bytes "%!s(MISSING)" ++ Sprintf rest []
    else c :: Sprintf (d :: rest) args

end fmt

/-- Go slice expression `s[:hi]`; it fails unless `0 ≤ hi ≤ len(s)`. -/
def sliceTo (s : GoString) (hi : Int) : Option GoString :=
  if 0 ≤ hi ∧ hi ≤ (s.length : Int) then some (s.take hi.toNat) else none

/-- Go slice expression `s[lo:]`; it fails unless `0 ≤ lo ≤ len(s)`. -/
def sliceFrom (s : GoString) (lo : Int) : Option GoString :=
  if 0 ≤ lo ∧ lo ≤ (s.length : Int) then some (s.drop lo.toNat) else none

namespace logical

/-- The lease part of a response (`logical.Lease`), with the fields that
`Secret.Response` sets. `time.Duration` is a signed count of nanoseconds. -/
structure Lease where
  VaultID : GoString
  Renewable : Bool
  Duration : Int
  GracePeriod : Int
deriving DecidableEq, Repr

/-- The response envelope (`logical.Response`), with the fields that
`Secret.Response` sets. `Lease` is a pointer: `none` is nil. -/
structure Response (V : Type) where
  IsSecret : Bool
  Lease : Option Lease
  Data : GoMap V
deriving DecidableEq, Repr

end logical

namespace framework

/-- The secret descriptor `Secret`. `F` stands for `*FieldSchema` and `Op` for
`OperationFunc`; a nil operation is `none`. -/
structure Secret (F Op : Type) where
  «Type» : GoString
  Fields : GoMap F
  DefaultDuration : Int
  DefaultGracePeriod : Int
  Renew : Option Op
  Revoke : Option Op

/-- The bytes that the comment on `Secret.Type` allows in a type name: ASCII
letters in either case, digits and the underscore. -/
def isTypeByte (b : GoByte) : Bool :=
  (0x41 ≤ b.val && b.val ≤ 0x5A) || (0x61 ≤ b.val && b.val ≤ 0x7A) ||
    (0x30 ≤ b.val && b.val ≤ 0x39) || b.val == 0x5F

/-- The format that the comment on `Secret.Type` asks of a type name, read as
the pattern `^[A-Za-z0-9_]+$`. -/
def matchesTypeFormat (t : GoString) : Bool :=
  !t.isEmpty && t.all isTypeByte

/-- `SecretType` is the type of the secret with the given ID, paired with the
rest of the ID. The result is `none` when a slice expression fails. -/
def SecretType (id : GoString) : Option (GoString × GoString) :=
  let idx := strings.Index id (bytes "-")
  if idx < 0 then
    some ([], id)
  else
    match sliceTo id idx, sliceFrom id (idx + 1) with
    | some t, some rest => some (t, rest)
    | _, _ => none

/-- `Secret.Response` on the descriptor `s` that the receiver points to. The
pair `gen` is what the call `logical.UUID()` returned: a string and an error,
`none` being the nil error. The result is the returned pair: the envelope
pointer (`none` is nil) and the error. -/
def Secret.Response {F Op V E : Type} (s : Secret F Op) (data : GoMap V)
    (gen : GoString × Option E) : Option (logical.Response V) × Option E :=
  match gen with
  | (_, some err) => (none, some err)
  | (uuid, none) =>
    let id := fmt.Sprintf (bytes "%s-%s") [s.«Type», uuid]
    (some
      { IsSecret := true
        Lease := some
          { VaultID := id
            Renewable := s.Renew.isSome
            Duration := s.DefaultDuration
            GracePeriod := s.DefaultGracePeriod }
        Data := data },
     none)

/-- A descriptor of type `aws`: renewable, with one hour of lease and five
minutes of grace. -/
def awsSecret : Secret Unit Unit :=
  { «Type» := bytes "aws", Fields := none, DefaultDuration := 3600000000000,
    DefaultGracePeriod := 300000000000, Renew := some (), Revoke := some () }

/-- A descriptor whose type `a-b` holds the separator; it sets nothing else. -/
def dashSecret : Secret Unit Unit :=
  { «Type» := bytes "a-b", Fields := none, DefaultDuration := 0,
    DefaultGracePeriod := 0, Renew := none, Revoke := none }

/-- The envelope issued to `awsSecret` for the data `{"k": 7}` when the
generator returns `1234`. -/
def awsEnvelope : logical.Response Nat :=
  { IsSecret := true
    Lease := some
      { VaultID := bytes "aws-1234", Renewable := true, Duration := 3600000000000,
        GracePeriod := 300000000000 }
    Data := some [(bytes "k", 7)] }

/-- The lease carried by the pair that `Secret.Response` returns, if any. -/
def issuedLease {V E : Type} (r : Option (logical.Response V) × Option E) :
    Option logical.Lease :=
  match r.1 with
  | some env => env.Lease
  | none => none

/-- The lease identifier carried by the pair that `Secret.Response` returns,
if any. -/
def issuedID {V E : Type} (r : Option (logical.Response V) × Option E) : Option GoString :=
  match issuedLease r with
  | some lease => some lease.VaultID
  | none => none

/-- `Secret.Response` as a computation on the memory cell that the receiver
`s *Secret` points to. The state is the descriptor in that cell; the body reads
it where the method reads `s.Type`, `s.Renew`, `s.DefaultDuration` and
`s.DefaultGracePeriod`, and the method holds no assignment through `s`. -/
def Secret.ResponseM {F Op V E : Type} (data : GoMap V) (gen : GoString × Option E) :
    StateM (Secret F Op) (Option (logical.Response V) × Option E) := do
  let (uuid, err) := gen
  match err with
  | some e => return (none, some e)
  | none =>
    let id := fmt.Sprintf (bytes "%s-%s") [(← get).«Type», uuid]
    return (some
      { IsSecret := true
        Lease := some
          { VaultID := id
            Renewable := (← get).Renew.isSome
            Duration := (← get).DefaultDuration
            GracePeriod := (← get).DefaultGracePeriod }
        Data := data },
     none)

/-- A sequence of issuance calls on one descriptor cell, each with its data
and the outcome of its call of the generator; the results are collected in
order. -/
def Secret.issueAll {F Op V E : Type} :
    List (GoMap V × (GoString × Option E)) →
      StateM (Secret F Op) (List (Option (logical.Response V) × Option E))
  | [] => pure []
  | c :: cs => do
    let r ← Secret.ResponseM c.1 c.2
    let rs ← Secret.issueAll cs
    pure (r :: rs)

/-- The state of the process outside the arguments of `Secret.Response`, as far
as the packages that `secret.go` imports reach it: the state behind
`logical.UUID`, the clock of package `time`, and the standard output that
package `fmt` prints to. -/
structure World (G : Type) where
  generator : G
  clock : Int
  stdout : GoString
deriving DecidableEq, Repr

/-- `Secret.Response` as a computation on the process state. `uuid` is the call
`logical.UUID()`, any computation on that state that returns a string and an
error; it is the one statement of the method that reaches the state, and the
rest of the body works on the descriptor, on `data` and on what `uuid`
returned. -/
def Secret.ResponseW {F Op V E G : Type} (uuid : StateM (World G) (GoString × Option E))
    (s : Secret F Op) (data : GoMap V) :
    StateM (World G) (Option (logical.Response V) × Option E) := do
  let (u, err) ← uuid
  match err with
  | some e => return (none, some e)
  | none =>
    let id := fmt.Sprintf (bytes "%s-%s") [s.«Type», u]
    return (some
      { IsSecret := true
        Lease := some
          { VaultID := id
            Renewable := s.Renew.isSome
            Duration := s.DefaultDuration
            GracePeriod := s.DefaultGracePeriod }
        Data := data },
     none)

/-- A generator for the examples: it counts its calls, returns the last digit
of the count as the string, and fails with the count as the error on every
tenth call. -/
def counterUUID : StateM (World Nat) (GoString × Option Nat) := fun w =>
  (if w.generator % 10 = 9 then ([], some w.generator)
    else ([Fin.ofNat (0x30 + w.generator % 10)], none),
   { w with generator := w.generator + 1 })

/-- A process state in which the generator has been called three times. -/
def worldA : World Nat :=
  { generator := 3, clock := 1000, stdout := [] }

/-- A process state with another count, another time and another output, in
which `counterUUID` returns what it returns in `worldA`. -/
def worldB : World Nat :=
  { generator := 13, clock := -5, stdout := bytes "log" }

end framework
/-! ## Literals -/

theorem bytes_dash : bytes "-" = [(0x2D : GoByte)] := by decide

theorem bytes_format : bytes "%s-%s" = [(0x25 : GoByte), 0x73, 0x2D, 0x25, 0x73] := by decide

/-! ## `strings.Index` with a one-byte separator -/

namespace strings

theorem indexFrom_byte_absent (c : GoByte) (s : GoString) (k : Nat) (h : c ∉ s) :
    indexFrom [c] s k = -1 := by
  induction s generalizing k with
  | nil => simp [indexFrom]
  | cons x xs ih =>
    have hx : c ≠ x := fun e => h (e ▸ List.mem_cons_self _ _)
    have hxs : c ∉ xs := fun m => h (List.mem_cons_of_mem _ m)
    simp [indexFrom, hx, ih (k + 1) hxs]

theorem indexFrom_byte_first (c : GoByte) (pre post : GoString) (k : Nat) (h : c ∉ pre) :
    indexFrom [c] (pre ++ c :: post) k = ((k + pre.length : Nat) : Int) := by
  induction pre generalizing k with
  | nil => simp [indexFrom]
  | cons x xs ih =>
    have hx : c ≠ x := fun e => h (e ▸ List.mem_cons_self _ _)
    have hxs : c ∉ xs := fun m => h (List.mem_cons_of_mem _ m)
    simp [indexFrom, hx, ih (k + 1) hxs]
    omega

theorem Index_byte_absent (c : GoByte) (s : GoString) (h : c ∉ s) : Index s [c] = -1 :=
  indexFrom_byte_absent c s 0 h

theorem Index_byte_first (c : GoByte) (pre post : GoString) (h : c ∉ pre) :
    Index (pre ++ c :: post) [c] = (pre.length : Int) := by
  simp [Index, indexFrom_byte_first c pre post 0 h]

end strings

/-- Every string that holds the byte `c` splits at the first `c`. -/
theorem split_at_first (c : GoByte) (s : GoString) (h : c ∈ s) :
    ∃ pre post, s = pre ++ c :: post ∧ c ∉ pre := by
  induction s with
  | nil => simp at h
  | cons x xs ih =>
    by_cases hx : c = x
    · exact ⟨[], xs, by simp [hx], by simp⟩
    · have hm : c ∈ xs := by
        rcases List.mem_cons.mp h with e | m
        · exact absurd e hx
        · exact m
      obtain ⟨pre, post, e, hp⟩ := ih hm
      refine ⟨x :: pre, post, by simp [e], ?_⟩
      intro m
      rcases List.mem_cons.mp m with e' | m'
      · exact hx e'
      · exact hp m'

namespace framework

theorem SecretType_absent (id : GoString) (h : (0x2D : GoByte) ∉ id) :
    SecretType id = some ([], id) := by
  simp [SecretType, bytes_dash, strings.Index_byte_absent _ id h]

theorem SecretType_first (pre post : GoString) (h : (0x2D : GoByte) ∉ pre) :
    SecretType (pre ++ 0x2D :: post) = some (pre, post) := by
  have hi := strings.Index_byte_first 0x2D pre post h
  simp only [SecretType, bytes_dash, hi, sliceTo, sliceFrom]
  have h1 : ¬ ((pre.length : Int) < 0) := by omega
  have h2 : (0 : Int) ≤ pre.length ∧ (pre.length : Int) ≤ ((pre ++ 0x2D :: post).length : Int) := by
    simp; omega
  have h3 : (0 : Int) ≤ (pre.length : Int) + 1 ∧
      (pre.length : Int) + 1 ≤ ((pre ++ 0x2D :: post).length : Int) := by
    simp; omega
  have h4 : ((pre.length : Int) + 1).toNat = pre.length + 1 := by omega
  simp only [h1, h2, h3, if_true, if_false, and_self, Int.toNat_ofNat, h4]
  simp

theorem Sprintf_type_uuid (t u : GoString) :
    fmt.Sprintf (bytes "%s-%s") [t, u] = t ++ bytes "-" ++ u := by
  rw [bytes_format, bytes_dash]
  simp [fmt.Sprintf]

end framework

/-! ## The identifier codec and the issued lease -/

namespace framework

theorem matchesTypeFormat_no_dash (t : GoString) (h : matchesTypeFormat t = true) :
    (0x2D : GoByte) ∉ t := by
  intro m
  simp only [matchesTypeFormat, Bool.and_eq_true, List.all_eq_true] at h
  have := h.2 _ m
  revert this
  decide

theorem Response_ok {F Op V E : Type} (s : Secret F Op) (data : GoMap V) (u : GoString) :
    s.Response data (u, (none : Option E)) =
      (some
        { IsSecret := true
          Lease := some
            { VaultID := s.«Type» ++ bytes "-" ++ u
              Renewable := s.Renew.isSome
              Duration := s.DefaultDuration
              GracePeriod := s.DefaultGracePeriod }
          Data := data },
       none) := by
  simp only [Secret.Response, Sprintf_type_uuid]

theorem Response_err {F Op V E : Type} (s : Secret F Op) (data : GoMap V) (u : GoString)
    (e : E) : s.Response data (u, some e) = (none, some e) := rfl

/-- C1: for every type string without the byte `-` and every suffix, with or
without `-` in it, `SecretType` applied to `type + "-" + suffix` returns the
pair `(type, suffix)`. -/
theorem SecretType_roundtrip (t u : GoString) (h : (0x2D : GoByte) ∉ t) :
    SecretType (t ++ bytes "-" ++ u) = some (t, u) := by
  rw [bytes_dash, List.append_assoc, List.singleton_append]
  exact SecretType_first t u h

theorem SecretType_roundtrip_witness :
    matchesTypeFormat (bytes "aws_2") = true ∧ (0x2D : GoByte) ∉ bytes "aws_2" ∧
      SecretType (bytes "aws_2" ++ bytes "-" ++ bytes "9f1c-42-a7") =
        some (bytes "aws_2", bytes "9f1c-42-a7") :=
  ⟨by decide, by decide, SecretType_roundtrip (bytes "aws_2") (bytes "9f1c-42-a7") (by decide)⟩

/-- C2: for every identifier without the byte `-`, the empty one included,
`SecretType` returns the empty type and the whole identifier as the suffix,
and does not fail. -/
theorem SecretType_no_separator (id : GoString) (h : (0x2D : GoByte) ∉ id) :
    SecretType id = some ([], id) :=
  SecretType_absent id h

theorem SecretType_no_separator_witness :
    (0x2D : GoByte) ∉ bytes "noseparatorhere" ∧
      SecretType (bytes "noseparatorhere") = some ([], bytes "noseparatorhere") :=
  ⟨by decide, SecretType_no_separator (bytes "noseparatorhere") (by decide)⟩

/-- C3: for every descriptor, data map and suffix `u` that the generator
returned without error, `Secret.Response` succeeds and the `VaultID` of the
lease in the envelope is `s.Type + "-" + u`; the descriptor of type `aws` with
the suffix `1234` is issued `aws-1234`. -/
theorem Response_VaultID {F Op V E : Type} (s : Secret F Op) (data : GoMap V) (u : GoString) :
    (∃ env lease, s.Response data (u, (none : Option E)) = (some env, none) ∧
      env.Lease = some lease ∧ lease.VaultID = s.«Type» ++ bytes "-" ++ u) ∧
    (∀ (fields : GoMap F) (renew revoke : Op),
      issuedLease
        (Secret.Response
          { «Type» := bytes "aws", Fields := fields, DefaultDuration := 3600000000000,
            DefaultGracePeriod := 300000000000, Renew := some renew, Revoke := some revoke }
          data (bytes "1234", (none : Option E))) =
        some
          { VaultID := bytes "aws-1234", Renewable := true, Duration := 3600000000000,
            GracePeriod := 300000000000 }) := by
  refine ⟨⟨_, _, Response_ok s data u, rfl, rfl⟩, ?_⟩
  intro fields renew revoke
  rw [Response_ok]
  simp only [issuedLease, Option.isSome_some]
  have : bytes "aws" ++ bytes "-" ++ bytes "1234" = bytes "aws-1234" := by decide
  rw [this]

/-- C4: for every descriptor whose `Type` has no `-` and every generator result
`u`, with or without `-` in it, `SecretType` applied to the `VaultID` that
`Secret.Response` issued returns `(s.Type, u)`. -/
theorem Response_SecretType {F Op V E : Type} (s : Secret F Op) (data : GoMap V)
    (u : GoString) (h : (0x2D : GoByte) ∉ s.«Type») :
    ∃ env lease, s.Response data (u, (none : Option E)) = (some env, none) ∧
      env.Lease = some lease ∧ SecretType lease.VaultID = some (s.«Type», u) := by
  refine ⟨_, _, Response_ok s data u, rfl, ?_⟩
  show SecretType (s.«Type» ++ bytes "-" ++ u) = some (s.«Type», u)
  rw [bytes_dash, List.append_assoc, List.singleton_append]
  exact SecretType_first _ u h

theorem Response_SecretType_witness :
    (0x2D : GoByte) ∉ awsSecret.«Type» ∧
      ∃ env lease,
        awsSecret.Response (none : GoMap Unit)
            (bytes "6ba7b810-9dad-11d1", (none : Option Unit)) = (some env, none) ∧
          env.Lease = some lease ∧
          SecretType lease.VaultID = some (awsSecret.«Type», bytes "6ba7b810-9dad-11d1") :=
  ⟨by decide, Response_SecretType awsSecret none (bytes "6ba7b810-9dad-11d1") (by decide)⟩

/-- C5: on every successful call of `Secret.Response` the lease is renewable if
and only if `s.Renew` is present, and changing `Type`, `Fields`, the defaults,
`Revoke`, the data or the generated suffix leaves `Renewable` as it was. -/
theorem Response_Renewable {F Op V E : Type} (s : Secret F Op) (data : GoMap V)
    (u : GoString) :
    ∃ env lease, s.Response data (u, (none : Option E)) = (some env, none) ∧
      env.Lease = some lease ∧ (lease.Renewable = true ↔ s.Renew ≠ none) ∧
      ∀ (ty : GoString) (fields : GoMap F) (dd dg : Int) (revoke : Option Op)
        (data' : GoMap V) (u' : GoString),
        ∃ env' lease',
          Secret.Response
            { «Type» := ty, Fields := fields, DefaultDuration := dd, DefaultGracePeriod := dg,
              Renew := s.Renew, Revoke := revoke }
            data' (u', (none : Option E)) = (some env', none) ∧
          env'.Lease = some lease' ∧ lease'.Renewable = lease.Renewable := by
  refine ⟨_, _, Response_ok s data u, rfl, ?_, ?_⟩
  · cases s.Renew <;> simp
  · intro ty fields dd dg revoke data' u'
    exact ⟨_, _, Response_ok _ data' u', rfl, rfl⟩

/-- C6: on every successful call of `Secret.Response` the lease has
`Duration = s.DefaultDuration` and `GracePeriod = s.DefaultGracePeriod`,
whatever their sign. -/
theorem Response_Duration_GracePeriod {F Op V E : Type} (s : Secret F Op) (data : GoMap V)
    (u : GoString) :
    ∃ env lease, s.Response data (u, (none : Option E)) = (some env, none) ∧
      env.Lease = some lease ∧ lease.Duration = s.DefaultDuration ∧
      lease.GracePeriod = s.DefaultGracePeriod :=
  ⟨_, _, Response_ok s data u, rfl, rfl, rfl⟩

/-- C7: `Secret.Response` fails exactly when the generator fails: it returns the
generator's error as its own, it returns the nil envelope if and only if that
error is not nil, and it returns an envelope if and only if the error is nil,
for every descriptor and data. -/
theorem Response_fails_iff {F Op V E : Type} (s : Secret F Op) (data : GoMap V)
    (gen : GoString × Option E) :
    (s.Response data gen).2 = gen.2 ∧
      ((s.Response data gen).1 = none ↔ gen.2 ≠ none) ∧
      ((∃ env, (s.Response data gen).1 = some env) ↔ gen.2 = none) := by
  obtain ⟨u, e⟩ := gen
  cases e with
  | none => rw [Response_ok]; simp
  | some e => rw [Response_err]; simp

/-- C8: for every identifier `SecretType` returns a pair: either the index of
`-` is negative, or both slice expressions `id[:idx]` and `id[idx+1:]` are
within the string. -/
theorem SecretType_total (id : GoString) :
    (∃ t u, SecretType id = some (t, u)) ∧
      (strings.Index id (bytes "-") < 0 ∨
        (0 ≤ strings.Index id (bytes "-") ∧
          strings.Index id (bytes "-") + 1 ≤ (id.length : Int) ∧
          (sliceTo id (strings.Index id (bytes "-"))).isSome = true ∧
          (sliceFrom id (strings.Index id (bytes "-") + 1)).isSome = true)) := by
  by_cases h : (0x2D : GoByte) ∈ id
  · obtain ⟨pre, post, e, hp⟩ := split_at_first _ id h
    subst e
    refine ⟨⟨pre, post, SecretType_first pre post hp⟩, Or.inr ?_⟩
    rw [bytes_dash, strings.Index_byte_first _ pre post hp]
    have hl : ((pre ++ (0x2D : GoByte) :: post).length : Int) = pre.length + post.length + 1 := by
      simp; omega
    refine ⟨by omega, by omega, ?_, ?_⟩
    · simp only [sliceTo, hl]
      rw [if_pos (by omega)]
      rfl
    · simp only [sliceFrom, hl]
      rw [if_pos (by omega)]
      rfl
  · refine ⟨⟨[], id, SecretType_absent id h⟩, Or.inl ?_⟩
    rw [bytes_dash, strings.Index_byte_absent _ id h]
    decide

/-- C9, as the code has it: a descriptor whose `Type` contains `-` is not
rejected; when the generator succeeds with `u`, `Secret.Response` succeeds and
issues the identifier `s.Type + "-" + u`. -/
theorem Response_dash_type_issued {F Op V E : Type} (s : Secret F Op) (data : GoMap V)
    (u : GoString) (_h : (0x2D : GoByte) ∈ s.«Type») :
    ∃ env lease, s.Response data (u, (none : Option E)) = (some env, none) ∧
      env.Lease = some lease ∧ lease.VaultID = s.«Type» ++ bytes "-" ++ u :=
  ⟨_, _, Response_ok s data u, rfl, rfl⟩

theorem Response_dash_type_issued_witness :
    (0x2D : GoByte) ∈ dashSecret.«Type» ∧
      ∃ env lease,
        dashSecret.Response (none : GoMap Unit) (bytes "77", (none : Option Unit)) =
            (some env, none) ∧
          env.Lease = some lease ∧
          lease.VaultID = dashSecret.«Type» ++ bytes "-" ++ bytes "77" :=
  ⟨by decide, Response_dash_type_issued dashSecret none (bytes "77") (by decide)⟩

/-- C9 fails as stated: the descriptor of type `a-b` has `-` in its `Type`, and
`Secret.Response` on it with the generator result `1` returns an envelope with
the identifier `a-b-1` and the nil error. -/
theorem Response_dash_type_not_rejected :
    (0x2D : GoByte) ∈ dashSecret.«Type» ∧
      dashSecret.Response (none : GoMap Unit) (bytes "1", (none : Option Unit)) =
        (some
          { IsSecret := true
            Lease := some
              { VaultID := bytes "a-b-1", Renewable := false, Duration := 0, GracePeriod := 0 }
            Data := none },
         none) := by
  decide

/-- C10: for every identifier that contains `-`, `SecretType` returns a pair
`(t, u)` in which `t` has no `-` and `t + "-" + u` is the identifier. -/
theorem SecretType_encode_decoded (id : GoString) (h : (0x2D : GoByte) ∈ id) :
    ∃ t u, SecretType id = some (t, u) ∧ (0x2D : GoByte) ∉ t ∧ t ++ bytes "-" ++ u = id := by
  obtain ⟨pre, post, e, hp⟩ := split_at_first _ id h
  subst e
  refine ⟨pre, post, SecretType_first pre post hp, hp, ?_⟩
  rw [bytes_dash, List.append_assoc, List.singleton_append]

theorem SecretType_encode_decoded_witness :
    (0x2D : GoByte) ∈ bytes "-a--b-" ∧
      ∃ t u, SecretType (bytes "-a--b-") = some (t, u) ∧ (0x2D : GoByte) ∉ t ∧
        t ++ bytes "-" ++ u = bytes "-a--b-" :=
  ⟨by decide, SecretType_encode_decoded (bytes "-a--b-") (by decide)⟩

end framework

/-! ## The envelope, the descriptor cell and the shape of decoded identifiers -/

namespace framework

theorem ResponseM_run {F Op V E : Type} (s : Secret F Op) (data : GoMap V)
    (gen : GoString × Option E) :
    (Secret.ResponseM data gen).run s = (s.Response data gen, s) := by
  obtain ⟨u, e⟩ := gen
  cases e <;> rfl

theorem ResponseW_run {F Op V E G : Type} (uuid : StateM (World G) (GoString × Option E))
    (s : Secret F Op) (data : GoMap V) (w : World G) :
    (Secret.ResponseW uuid s data).run w = (s.Response data (uuid.run w).1, (uuid.run w).2) := by
  simp only [Secret.ResponseW, StateT.run_bind]
  rcases h : uuid.run w with ⟨⟨u, e⟩, w₁⟩
  cases e <;> rfl

theorem issueAll_run {F Op V E : Type} (s : Secret F Op)
    (calls : List (GoMap V × (GoString × Option E))) :
    ((Secret.issueAll calls).run s).2 = s ∧
      ((Secret.issueAll calls).run s).1 = calls.map (fun c => s.Response c.1 c.2) := by
  induction calls with
  | nil => exact ⟨rfl, rfl⟩
  | cons c cs ih =>
    simp only [Secret.issueAll, StateT.run_bind, ResponseM_run, List.map_cons]
    obtain ⟨h1, h2⟩ := ih
    exact ⟨h1, congrArg (fun rs => s.Response c.1 c.2 :: rs) h2⟩

theorem issuedID_ok {F Op V E : Type} (s : Secret F Op) (data : GoMap V) (u : GoString) :
    issuedID (s.Response data (u, (none : Option E))) = some (s.«Type» ++ bytes "-" ++ u) := by
  rw [Response_ok]
  rfl

/-- C11: for every descriptor and data map, the envelope that `Secret.Response`
returns has the data map it was given as its `Data`, whatever `Fields` holds. -/
theorem Response_Data {F Op V E : Type} (s : Secret F Op) (data : GoMap V) (u : GoString) :
    ∃ env, s.Response data (u, (none : Option E)) = (some env, none) ∧ env.Data = data :=
  ⟨_, Response_ok s data u, rfl⟩

/-- C12: every envelope that `Secret.Response` returns has `IsSecret = true`
and a lease that is not nil, for every descriptor and data. -/
theorem Response_IsSecret_Lease {F Op V E : Type} (s : Secret F Op) (data : GoMap V)
    (gen : GoString × Option E) (env : logical.Response V)
    (h : (s.Response data gen).1 = some env) :
    env.IsSecret = true ∧ ∃ lease, env.Lease = some lease := by
  obtain ⟨u, e⟩ := gen
  cases e with
  | some e => rw [Response_err] at h; simp at h
  | none =>
    rw [Response_ok] at h
    simp only [Option.some.injEq] at h
    subst h
    exact ⟨rfl, _, rfl⟩

theorem Response_IsSecret_Lease_witness :
    (awsSecret.Response (some [(bytes "k", 7)]) (bytes "1234", (none : Option Unit))).1 =
        some awsEnvelope ∧
      (awsEnvelope.IsSecret = true ∧ ∃ lease, awsEnvelope.Lease = some lease) :=
  ⟨by decide,
    Response_IsSecret_Lease awsSecret (some [(bytes "k", 7)])
      (bytes "1234", (none : Option Unit)) awsEnvelope (by decide)⟩

/-- C13: for two descriptors whose types have no `-`, equal issued identifiers
force equal types and equal generator results; and one descriptor with two
distinct generator results is issued two distinct identifiers. -/
theorem Response_no_collision {F Op V E : Type} (s₁ s₂ : Secret F Op) (d₁ d₂ : GoMap V)
    (u₁ u₂ : GoString) (h₁ : (0x2D : GoByte) ∉ s₁.«Type») (h₂ : (0x2D : GoByte) ∉ s₂.«Type») :
    (issuedID (s₁.Response d₁ (u₁, (none : Option E))) =
        issuedID (s₂.Response d₂ (u₂, (none : Option E))) →
      s₁.«Type» = s₂.«Type» ∧ u₁ = u₂) ∧
    (u₁ ≠ u₂ →
      issuedID (s₁.Response d₁ (u₁, (none : Option E))) ≠
        issuedID (s₁.Response d₂ (u₂, (none : Option E)))) := by
  constructor
  · intro heq
    rw [issuedID_ok, issuedID_ok] at heq
    have e := Option.some.inj heq
    rw [bytes_dash, List.append_assoc, List.singleton_append, List.append_assoc,
      List.singleton_append] at e
    have k₁ := SecretType_first s₁.«Type» u₁ h₁
    rw [e, SecretType_first s₂.«Type» u₂ h₂] at k₁
    have k := Option.some.inj k₁
    exact ⟨(congrArg Prod.fst k).symm, (congrArg Prod.snd k).symm⟩
  · intro hne heq
    rw [issuedID_ok, issuedID_ok] at heq
    exact hne (List.append_cancel_left (Option.some.inj heq))

theorem Response_no_collision_witness :
    (0x2D : GoByte) ∉ awsSecret.«Type» ∧
      ((issuedID (awsSecret.Response (none : GoMap Unit) (bytes "7f-01", (none : Option Unit))) =
          issuedID (awsSecret.Response (none : GoMap Unit) (bytes "7f-02", (none : Option Unit))) →
        awsSecret.«Type» = awsSecret.«Type» ∧ bytes "7f-01" = bytes "7f-02") ∧
      (bytes "7f-01" ≠ bytes "7f-02" →
        issuedID (awsSecret.Response (none : GoMap Unit) (bytes "7f-01", (none : Option Unit))) ≠
          issuedID
            (awsSecret.Response (none : GoMap Unit) (bytes "7f-02", (none : Option Unit))))) :=
  ⟨by decide,
    Response_no_collision awsSecret awsSecret none none (bytes "7f-01") (bytes "7f-02")
      (by decide) (by decide)⟩

/-- C14: two runs of `Secret.Response` on descriptors with equal fields, with
equal data, from any two process states in which the generator has the same
outcome (the same error, or no error and the same suffix) return equal
results; each result is what the method computes from the descriptor, the data
and that outcome, and the process state after the run is the one the single
generator call left. -/
theorem Response_deterministic {F Op V E G : Type}
    (uuid : StateM (World G) (GoString × Option E)) (s s' : Secret F Op)
    (data data' : GoMap V) (w w' : World G)
    (hType : s.«Type» = s'.«Type») (hFields : s.Fields = s'.Fields)
    (hDuration : s.DefaultDuration = s'.DefaultDuration)
    (hGrace : s.DefaultGracePeriod = s'.DefaultGracePeriod)
    (hRenew : s.Renew = s'.Renew) (hRevoke : s.Revoke = s'.Revoke)
    (hData : data = data')
    (hGen : (uuid.run w).1.2 = (uuid.run w').1.2 ∧
      ((uuid.run w).1.2 = none → (uuid.run w).1.1 = (uuid.run w').1.1)) :
    ((Secret.ResponseW uuid s data).run w).1 = ((Secret.ResponseW uuid s' data').run w').1 ∧
      ((Secret.ResponseW uuid s data).run w).1 = s.Response data (uuid.run w).1 ∧
      ((Secret.ResponseW uuid s data).run w).2 = (uuid.run w).2 := by
  obtain ⟨ty, fields, dd, dg, renew, revoke⟩ := s
  obtain ⟨ty', fields', dd', dg', renew', revoke'⟩ := s'
  simp only at hType hFields hDuration hGrace hRenew hRevoke
  subst hType hFields hDuration hGrace hRenew hRevoke hData
  rw [ResponseW_run, ResponseW_run]
  refine ⟨?_, rfl, rfl⟩
  obtain ⟨he, hu⟩ := hGen
  rcases h : (uuid.run w).1 with ⟨u, e⟩
  rcases h' : (uuid.run w').1 with ⟨u', e'⟩
  rw [h, h'] at he
  rw [h, h'] at hu
  simp only at he hu
  subst he
  cases e with
  | some e => rfl
  | none => rw [hu rfl]

theorem Response_deterministic_witness :
    ((counterUUID.run worldA).1.2 = (counterUUID.run worldB).1.2 ∧
        ((counterUUID.run worldA).1.2 = none →
          (counterUUID.run worldA).1.1 = (counterUUID.run worldB).1.1)) ∧
      worldA ≠ worldB ∧
      (((Secret.ResponseW counterUUID awsSecret (none : GoMap Unit)).run worldA).1 =
          ((Secret.ResponseW counterUUID awsSecret (none : GoMap Unit)).run worldB).1 ∧
        ((Secret.ResponseW counterUUID awsSecret (none : GoMap Unit)).run worldA).1 =
          awsSecret.Response (none : GoMap Unit) (counterUUID.run worldA).1 ∧
        ((Secret.ResponseW counterUUID awsSecret (none : GoMap Unit)).run worldA).2 =
          (counterUUID.run worldA).2) :=
  ⟨by decide, by decide,
    Response_deterministic counterUUID awsSecret awsSecret none none worldA worldB
      rfl rfl rfl rfl rfl rfl rfl (by decide)⟩

/-- C15: `Secret.Response` leaves the descriptor cell as it found it, when it
succeeds and when it fails, and returns what the method returns; hence after
any sequence of issuance calls the cell still holds the same `Type`, `Fields`,
defaults, `Renew` and `Revoke`. -/
theorem Response_descriptor_unchanged {F Op V E : Type} (s : Secret F Op) (data : GoMap V)
    (gen : GoString × Option E) (calls : List (GoMap V × (GoString × Option E))) :
    ((Secret.ResponseM data gen).run s).2 = s ∧
      ((Secret.ResponseM data gen).run s).1 = s.Response data gen ∧
      ((Secret.issueAll calls).run s).2 = s ∧
      (((Secret.issueAll calls).run s).2.«Type» = s.«Type» ∧
        ((Secret.issueAll calls).run s).2.Renew.isSome = s.Renew.isSome ∧
        ((Secret.issueAll calls).run s).2.Revoke = s.Revoke) := by
  have h := (issueAll_run s calls).1
  rw [ResponseM_run, h]
  exact ⟨rfl, rfl, rfl, rfl, rfl, rfl⟩

/-- C16: `SecretType` returns an empty type if and only if the identifier has
no `-` or begins with `-`; `abc` and `-abc` both decode to the empty type and
`abc`, so `SecretType` is not injective. -/
theorem SecretType_empty_type_iff :
    (∀ id : GoString, ∃ t u, SecretType id = some (t, u) ∧
      (t = [] ↔ ((0x2D : GoByte) ∉ id ∨ ∃ rest, id = 0x2D :: rest))) ∧
    SecretType (bytes "abc") = some ([], bytes "abc") ∧
    SecretType (bytes "-abc") = some ([], bytes "abc") ∧
    ¬ Function.Injective SecretType := by
  have habc : SecretType (bytes "abc") = some ([], bytes "abc") := by decide
  have hdabc : SecretType (bytes "-abc") = some ([], bytes "abc") := by decide
  refine ⟨?_, habc, hdabc, ?_⟩
  · intro id
    by_cases h : (0x2D : GoByte) ∈ id
    · obtain ⟨pre, post, e, hp⟩ := split_at_first _ id h
      subst e
      refine ⟨pre, post, SecretType_first pre post hp, ?_, ?_⟩
      · intro hpre
        subst hpre
        exact Or.inr ⟨post, rfl⟩
      · rintro (hno | ⟨rest, hrest⟩)
        · exact absurd h hno
        · cases pre with
          | nil => rfl
          | cons x xs =>
            have hx : x = 0x2D := by
              have := congrArg List.head? hrest
              simpa using this
            exact absurd (hx ▸ List.mem_cons_self x xs) hp
    · exact ⟨[], id, SecretType_absent id h, fun _ => Or.inl h, fun _ => rfl⟩
  · intro hinj
    have e : bytes "abc" = bytes "-abc" := hinj (habc.trans hdabc.symm)
    revert e
    decide

/-- C17: for every descriptor whose `Type` contains `-` and every generator
result, the issued identifier is `s.Type + "-" + u` and `SecretType` decodes it
to a type that is the part of `s.Type` before its first `-`: a prefix of
`s.Type` without `-`, different from `s.Type`. -/
theorem Response_dash_type_not_recovered {F Op V E : Type} (s : Secret F Op) (data : GoMap V)
    (u : GoString) (h : (0x2D : GoByte) ∈ s.«Type») :
    ∃ env lease t rest, s.Response data (u, (none : Option E)) = (some env, none) ∧
      env.Lease = some lease ∧ lease.VaultID = s.«Type» ++ bytes "-" ++ u ∧
      SecretType lease.VaultID = some (t, rest) ∧
      t <+: s.«Type» ∧ t ≠ s.«Type» ∧ (0x2D : GoByte) ∉ t ∧
      ∃ post, s.«Type» = t ++ bytes "-" ++ post ∧ rest = post ++ bytes "-" ++ u := by
  obtain ⟨pre, post, e, hp⟩ := split_at_first _ s.«Type» h
  refine ⟨_, _, pre, post ++ bytes "-" ++ u, Response_ok s data u, rfl, rfl, ?_, ?_, ?_, hp,
    post, ?_, rfl⟩
  · show SecretType (s.«Type» ++ bytes "-" ++ u) = _
    rw [e, bytes_dash]
    have := SecretType_first pre (post ++ [0x2D] ++ u) hp
    simpa using this
  · exact ⟨0x2D :: post, e.symm⟩
  · intro hpre
    have hl := congrArg List.length e
    rw [← hpre] at hl
    simp at hl
  · rw [bytes_dash, e]
    simp

theorem Response_dash_type_not_recovered_witness :
    (0x2D : GoByte) ∈ dashSecret.«Type» ∧
      ∃ env lease t rest,
        dashSecret.Response (none : GoMap Unit) (bytes "42", (none : Option Unit)) =
            (some env, none) ∧
          env.Lease = some lease ∧ lease.VaultID = dashSecret.«Type» ++ bytes "-" ++ bytes "42" ∧
          SecretType lease.VaultID = some (t, rest) ∧
          t <+: dashSecret.«Type» ∧ t ≠ dashSecret.«Type» ∧ (0x2D : GoByte) ∉ t ∧
          ∃ post, dashSecret.«Type» = t ++ bytes "-" ++ post ∧
            rest = post ++ bytes "-" ++ bytes "42" :=
  ⟨by decide, Response_dash_type_not_recovered dashSecret none (bytes "42") (by decide)⟩

end framework
